import Mathlib

/-!
Verification development for the MovieVikings repository
(`site/myapp/utils.py`, `site/myapp/views.py`, `site/myapp/tmdb_client.py`,
`site/myapp/models.py`,
`site/myapp/management/commands/update_watch_providers.py`).

Each Python function relevant to the checked properties is embedded as an
executable Lean definition; theorems about these definitions settle the
properties.  Floating-point popularity/rating values are modelled as
rationals (only their ordering matters to the checked properties), Django
querysets as lists of records, and database tables as lists of rows.
-/

namespace MovieVikings

/-! Content aggregation pipeline (`utils.py`, `views.py`). -/

/-- Row of the `StreamingProvider` table (`models.py`): the fields read by the
aggregation pipeline. -/
structure StreamingProviderRec where
  name : String
  tmdb_id : Nat
  logo_path : Option String
deriving DecidableEq

/-- One prefetched `MovieProvider`/`TVShowProvider` row as seen by
`_extract_providers_for_item` (`item.providers_list`): the related provider
plus the offer-type string. -/
structure ProviderInfoRec where
  provider : StreamingProviderRec
  type : String
deriving DecidableEq

/-- Django `settings.MEDIA_URL` (site configuration, default media prefix). -/
def MEDIA_URL : String := "/media/"

/-- Embedding of `utils.get_provider_logo_url`.  `none` and `some ""` model
Python falsy values of `logo_path`. -/
def get_provider_logo_url (logo_path : Option String) : Option String :=
  match logo_path with
  | none => none
  | some p =>
    if p = "" ∨ p = "None" then none
    else
      let base_url := "https://image.tmdb.org/t/p/w92"
      if p.startsWith "/" then some (base_url ++ p) else some (base_url ++ "/" ++ p)

/-- Embedding of `utils.get_poster_url`. -/
def get_poster_url (poster_path : Option String) : Option String :=
  match poster_path with
  | none => none
  | some p =>
    if p = "" then none
    else if p.startsWith "posters/" then some (MEDIA_URL ++ p)
    else if p.startsWith "http://" ∨ p.startsWith "https://" then some p
    else some ("https://image.tmdb.org/t/p/w500" ++ p)

/-- The per-provider dictionary built inside `_extract_providers_for_item`. -/
structure ProviderData where
  provider_name : String
  logo_path : Option String
  provider_id : Nat
deriving DecidableEq

/-- The `providers` dictionary returned by `_extract_providers_for_item`:
`flatrate`/`rent`/`buy` buckets plus the `available` flag. -/
structure ProvidersBuckets where
  flatrate : List ProviderData
  rent : List ProviderData
  buy : List ProviderData
  available : Bool
deriving DecidableEq

/-- The `provider_data` dictionary built for one prefetched provider row. -/
def provider_data_of (info : ProviderInfoRec) : ProviderData :=
  { provider_name := info.provider.name
    logo_path := get_provider_logo_url info.provider.logo_path
    provider_id := info.provider.tmdb_id }

/-- One iteration of the loop in `_extract_providers_for_item`: append the
provider to the bucket named by `provider_info.type`, if that bucket exists. -/
def addProviderInfo (b : ProvidersBuckets) (info : ProviderInfoRec) : ProvidersBuckets :=
  if info.type = "flatrate" then { b with flatrate := b.flatrate ++ [provider_data_of info] }
  else if info.type = "rent" then { b with rent := b.rent ++ [provider_data_of info] }
  else if info.type = "buy" then { b with buy := b.buy ++ [provider_data_of info] }
  else b

/-- Embedding of `utils._extract_providers_for_item`. -/
def _extract_providers_for_item (providers_list : List ProviderInfoRec) : ProvidersBuckets :=
  let b := providers_list.foldl addProviderInfo ⟨[], [], [], false⟩
  { b with available := !b.flatrate.isEmpty || !b.rent.isEmpty || !b.buy.isEmpty }

/-- A `Movie` or `TVShow` row with its prefetched `providers_list`, holding
the fields `process_content_item` reads.  `rating` and `popularity` are
`FloatField`s, modelled as rationals; `Option` models nullable columns and
the `getattr` fallback for `first_air_date`. -/
structure ContentRec where
  tmdb_id : Nat
  title : String
  overview : String
  poster_path : Option String
  rating : Option Rat
  popularity : Option Rat
  vote_count : Option Int
  release_date : Option String
  first_air_date : Option String
  providers_list : List ProviderInfoRec
deriving DecidableEq

/-- The dictionary returned by `process_content_item`. -/
structure ContentDict where
  id : String
  title : String
  overview : String
  poster_url : Option String
  rating : Rat
  vote_count : Int
  release_date : Option String
  media_type : String
  popularity : Rat
  streaming_providers : ProvidersBuckets
  in_watchlist : Bool
deriving DecidableEq

/-- Embedding of `utils.process_content_item`. -/
def process_content_item (item : ContentRec) (watchlist_ids : List String)
    (media_type : String) : ContentDict :=
  { id := toString item.tmdb_id
    title := item.title
    overview := item.overview
    poster_url := get_poster_url item.poster_path
    rating := item.rating.getD 0
    vote_count := item.vote_count.getD 0
    release_date := if media_type = "movie" then item.release_date else item.first_air_date
    media_type := media_type
    popularity := item.popularity.getD 0
    streaming_providers := _extract_providers_for_item item.providers_list
    in_watchlist := watchlist_ids.contains (toString item.tmdb_id) }

/-- The comparison realised by
`all_content_dicts.sort(key=lambda x: (popularity, rating), reverse=True)`
in `views.popular`: descending lexicographic order on the key pair.  `a`
may precede `b` exactly when `key a ≥ key b` lexicographically. -/
def sortKeyGe (a b : ContentDict) : Bool :=
  decide (b.popularity < a.popularity ∨
    (a.popularity = b.popularity ∧ b.rating ≤ a.rating))

/-- The merged, sorted (not yet paginated) list built by `views.popular`:
movie dictionaries, then TV dictionaries, sorted in place by
`(popularity, rating)` descending. -/
def popular_content (movies tv_shows : List ContentRec)
    (watchlist_ids : List String) : List ContentDict :=
  ((movies.map (fun m => process_content_item m watchlist_ids "movie")) ++
    (tv_shows.map (fun t => process_content_item t watchlist_ids "tv"))).mergeSort sortKeyGe

/-! Multi search and keyword search (`tmdb_client.py`). -/

/-- One result item of a TMDB search response, with the keys
`TMDBClient.search` touches.  `id := none` models a payload item lacking the
`id` key (`item.get("id")` is `None`); `id := some 0` models the literal id
`0` (falsy in Python, like `None`). -/
structure SearchItem where
  id : Option Nat
  title : Option String
  poster_path : Option String
  media_type : Option String
  overview : Option String
  popularity : Option Rat
  rating : Option Rat
  vote_count : Option Int
deriving DecidableEq

/-- A search item carrying only an id, all other keys absent. -/
def mkItem (n : Option Nat) : SearchItem :=
  { id := n, title := none, poster_path := none, media_type := none
    overview := none, popularity := none, rating := none, vote_count := none }

/-- The synthetic item `TMDBClient.search` substitutes when the merged,
de-duplicated result list is empty. -/
def no_results_placeholder : SearchItem :=
  { id := some 0
    title := some "No results found"
    poster_path := none
    media_type := some "movie"
    overview := some "No description available."
    popularity := some 0
    rating := some 0
    vote_count := some 0 }

/-- The de-duplication loop of `TMDBClient.search`: walk the aggregated
results keeping the `seen_ids` accumulator; an item is kept only when
`item.get("id")` is truthy (present and nonzero) and not yet seen. -/
def dedup_go : List SearchItem → List Nat → List SearchItem
  | [], _ => []
  | item :: rest, seen =>
    match item.id with
    | some n =>
      if n ≠ 0 ∧ n ∉ seen then item :: dedup_go rest (n :: seen)
      else dedup_go rest seen
    | none => dedup_go rest seen

/-- Test used to count or filter result items carrying a given external id. -/
def byId (n : Nat) (it : SearchItem) : Bool :=
  it.id == some n

/-- Embedding of the aggregation part of `TMDBClient.search`: the three
sub-search result lists are concatenated in the order collection, keyword,
title; duplicates are removed; an empty de-duplicated list is replaced by
the single placeholder item.  The sub-search result lists are parameters
because they come from the external API. -/
def tmdb_search (collection_results keyword_results title_results : List SearchItem) :
    List SearchItem :=
  let merged := collection_results ++ keyword_results ++ title_results
  let unique_results := dedup_go merged []
  if unique_results = [] then [no_results_placeholder] else unique_results

/-- One keyword record of a `search/keyword` response (only `id` is read). -/
structure KeywordRec where
  id : Nat
deriving DecidableEq

/-- Embedding of `TMDBClient.keyword_search`.  `keyword_lookup` is the
`results` list of the `search/keyword` call; `discover` maps a keyword id to
the `discover/movie` response for that keyword (the external API as an
oracle).  Returns `none` when the function returns the empty dict `{}`.
The loop body overwrites `results` on every iteration, so only the value
from the last of the (at most three) keywords survives. -/
def keyword_search (keyword_lookup : List KeywordRec)
    (discover : Nat → List SearchItem) : Option (List SearchItem) :=
  if keyword_lookup = [] then none
  else
    let top_keywords := keyword_lookup.take 3
    top_keywords.foldl (fun _ k => some (discover k.id)) none

/-! Pagination (`utils.paginate_results`). -/

/-- The page argument handed to `Paginator.page`.  `num n` is any value
`int()` converts (the view passes the raw `page` GET parameter or the
default `1`); `notAnInt` is any value on which `int()` raises, such as the
string `"abc"`. -/
inductive PageArg where
  | num (n : Int)
  | notAnInt
deriving DecidableEq

/-- The two page-validation errors of Django's paginator. -/
inductive PageError where
  | pageNotAnInteger
  | emptyPage
deriving DecidableEq

/-- Modelled from the spec: Django's `Paginator.num_pages` (framework code,
not part of the repository): `ceil(max(1, count) / per_page)` with the
default `orphans = 0` and `allow_empty_first_page = True`. -/
def num_pages (count per_page : Nat) : Nat :=
  (max 1 count + (per_page - 1)) / per_page

/-- Modelled from the spec: Django's `Paginator.validate_number` (framework
code, not part of the repository): a non-integer argument raises
`PageNotAnInteger`; a number below 1, or above `num_pages` (other than an
allowed empty first page), raises `EmptyPage`. -/
def validate_number (count per_page : Nat) (arg : PageArg) : Except PageError Int :=
  match arg with
  | .notAnInt => .error .pageNotAnInteger
  | .num n =>
    if n < 1 then .error .emptyPage
    else if n > (num_pages count per_page : Int) then
      if n = 1 then .ok n else .error .emptyPage
    else .ok n

/-- The object list of page `n` (Django `Page.object_list`): the slice
`[(n-1)*per_page, n*per_page)` of the item list. -/
def page_slice (items : List α) (per_page : Nat) (n : Int) : List α :=
  (items.drop ((n.toNat - 1) * per_page)).take per_page

/-- Embedding of `utils.paginate_results`: validate the requested page
number, mapping `PageNotAnInteger` to page 1 and `EmptyPage` to the last
page; return the resulting page number and its object list. -/
def paginate_results (items : List α) (page_number : PageArg) (items_per_page : Nat) :
    Int × List α :=
  match validate_number items.length items_per_page page_number with
  | .ok n => (n, page_slice items items_per_page n)
  | .error .pageNotAnInteger => (1, page_slice items items_per_page 1)
  | .error .emptyPage =>
    ((num_pages items.length items_per_page : Int),
      page_slice items items_per_page (num_pages items.length items_per_page))

/-! Badge evaluator (`views.profile_view`, `models.py`). -/

/-- A `Badge` row: the fields the evaluator reads. -/
structure BadgeRec where
  bid : Nat
  requirement_type : String
  requirement_count : Nat
deriving DecidableEq

/-- A `UserBadge` grant row. -/
structure UserBadgeRow where
  user : Nat
  badge : Nat
deriving DecidableEq

/-- Embedding of `UserBadge.objects.get_or_create(user=..., badge=...)`:
insert the row only when no row with that (user, badge) pair exists. -/
def get_or_create_user_badge (rows : List UserBadgeRow) (u b : Nat) : List UserBadgeRow :=
  if rows.any (fun r => decide (r.user = u ∧ r.badge = b)) then rows
  else rows ++ [⟨u, b⟩]

/-- One of the four award loops in `profile_view`: for each badge of the
category (in ascending `requirement_count` order), grant it when the counter
meets or exceeds the threshold. -/
def award_badges (rows : List UserBadgeRow) (u : Nat) (counter : Nat)
    (badges : List BadgeRec) : List UserBadgeRow :=
  badges.foldl
    (fun rs b => if counter ≥ b.requirement_count then get_or_create_user_badge rs u b.bid else rs)
    rows

/-- The four counters `profile_view` computes before awarding badges. -/
structure ProfileCounters where
  watched_movie_count : Nat
  watched_tv_count : Nat
  reviews_written : Nat
  total_watch_hours : Nat
deriving DecidableEq

/-- The `order_by('requirement_count')` queryset ordering. -/
def sortByRequirement (l : List BadgeRec) : List BadgeRec :=
  l.mergeSort (fun a b => a.requirement_count ≤ b.requirement_count)

/-- The badge-awarding section of `views.profile_view`: filter the badge
table by requirement type, order by threshold, and run the four award loops
in the order they appear in the view. -/
def check_and_award_badges (rows : List UserBadgeRow) (u : Nat) (c : ProfileCounters)
    (all_badges : List BadgeRec) : List UserBadgeRow :=
  let movie_milestone_badges :=
    sortByRequirement (all_badges.filter (fun b => b.requirement_type == "movies_watched"))
  let tv_milestone_badges :=
    sortByRequirement (all_badges.filter (fun b => b.requirement_type == "tv_shows_watched"))
  let review_badges :=
    sortByRequirement (all_badges.filter (fun b => b.requirement_type == "reviews_written"))
  let watch_time_badges :=
    sortByRequirement (all_badges.filter (fun b => b.requirement_type == "watch_hours"))
  let r1 := award_badges rows u c.watched_movie_count movie_milestone_badges
  let r2 := award_badges r1 u c.watched_tv_count tv_milestone_badges
  let r3 := award_badges r2 u c.reviews_written review_badges
  award_badges r3 u c.total_watch_hours watch_time_badges

/-- A `WatchedMovie` row: the fields the watch-time computation reads. -/
structure WatchedRec where
  media_type : String
  runtime : Option Nat
  review : Option String
deriving DecidableEq

/-- The `aggregate(Sum('runtime'))` over entries whose runtime is not null
(`profile_view`). -/
def total_watch_minutes_stored (items : List WatchedRec) : Nat :=
  ((items.filter (fun w => w.runtime.isSome)).map (fun w => w.runtime.getD 0)).sum

/-- Count of watched movie entries lacking a runtime (`profile_view`). -/
def movies_without_runtime (items : List WatchedRec) : Nat :=
  ((items.filter (fun w => w.runtime.isNone)).filter (fun w => w.media_type == "movie")).length

/-- Count of watched TV entries lacking a runtime (`profile_view`). -/
def tv_without_runtime (items : List WatchedRec) : Nat :=
  ((items.filter (fun w => w.runtime.isNone)).filter (fun w => w.media_type == "tv")).length

/-- The evaluator's watch-time counter (`profile_view`): stored minutes plus
the 120/400-minute estimates, floor-divided by 60. -/
def total_watch_hours (items : List WatchedRec) : Nat :=
  (total_watch_minutes_stored items +
    (movies_without_runtime items * 120 + tv_without_runtime items * 400)) / 60

/-- The watch-time formula as the spec words it: per watched entry, its
stored runtime when present, otherwise 120 minutes for a movie and 400
minutes for a TV show; the total converted from minutes to hours. -/
def spec_watch_minutes (items : List WatchedRec) : Nat :=
  (items.map (fun w =>
    match w.runtime with
    | some r => r
    | none =>
      if w.media_type == "movie" then 120
      else if w.media_type == "tv" then 400
      else 0)).sum

/-! Social graph (`models.User`). -/

/-- The `FriendRequest.status` choices. -/
inductive FRStatus where
  | pending
  | accepted
  | rejected
deriving DecidableEq

/-- A `FriendRequest` row. -/
structure FriendRequestRec where
  from_user : Nat
  to_user : Nat
  status : FRStatus
deriving DecidableEq

/-- Embedding of `User.send_friend_request`: refuse a self-request or any
pair with an existing row in either direction; otherwise insert a pending
row.  Returns the new table and the method's boolean result. -/
def send_friend_request (db : List FriendRequestRec) (self to_user : Nat) :
    List FriendRequestRec × Bool :=
  if self = to_user then (db, false)
  else if db.any (fun r =>
      decide ((r.from_user = self ∧ r.to_user = to_user) ∨
        (r.from_user = to_user ∧ r.to_user = self))) then (db, false)
  else (db ++ [⟨self, to_user, .pending⟩], true)

/-- The filter used by `User.accept_friend_request`'s `objects.get`. -/
def acceptPred (self from_user : Nat) (r : FriendRequestRec) : Bool :=
  decide (r.from_user = from_user ∧ r.to_user = self ∧ r.status = .pending)

/-- Embedding of `User.accept_friend_request`: `objects.get` of the single
pending row from `from_user` to `self`; `DoesNotExist` is caught and yields
`false`; more than one match raises `MultipleObjectsReturned`, modelled as
`none` (it cannot occur under the table's unique (from, to) constraint).
On success the matched row's status is saved as accepted. -/
def accept_friend_request (db : List FriendRequestRec) (self from_user : Nat) :
    Option (List FriendRequestRec × Bool) :=
  match db.filter (acceptPred self from_user) with
  | [] => some (db, false)
  | [_] =>
    some (db.map (fun r =>
      if acceptPred self from_user r then { r with status := .accepted } else r), true)
  | _ => none

/-- Embedding of `User.get_friends`: ids of users reachable through accepted
rows sent by `self`, then ids reachable through accepted rows received by
`self` (the view then loads the `User` rows with these ids). -/
def get_friends (db : List FriendRequestRec) (self : Nat) : List Nat :=
  ((db.filter (fun r => decide (r.from_user = self ∧ r.status = .accepted))).map
      (fun r => r.to_user)) ++
    ((db.filter (fun r => decide (r.to_user = self ∧ r.status = .accepted))).map
      (fun r => r.from_user))

/-! Provider refresh (`update_watch_providers.py`). -/

/-- The command's region allow-list. -/
def ALLOWED_REGIONS : List String := ["NO", "US", "GB", "DE", "FR", "SE", "DK"]

/-- Offer-type of an availability row. -/
inductive OfferKind where
  | flatrate
  | rent
  | buy
deriving DecidableEq

/-- One provider entry of the upstream watch-providers payload.
`provider_id := none` models an entry on which `provider_data['provider_id']`
raises `KeyError` inside `get_or_create_provider`. -/
structure PEntry where
  provider_id : Option Nat
deriving DecidableEq

/-- The per-region offer lists of the upstream payload. -/
structure RegionOffers where
  flatrate : List PEntry
  rent : List PEntry
  buy : List PEntry
deriving DecidableEq

/-- A `MovieProvider` availability row, i.e. the tuple covered by the
table's unique (movie, provider, region, type) constraint. -/
structure MovieProviderRow where
  movie : Nat
  provider : Nat
  region : String
  type : OfferKind
deriving DecidableEq

/-- The sequence of row creations `update_movie_providers` attempts for one
region, in source order (flatrate, then rent, then buy); `none` marks the
point where a malformed entry raises before its row can be built. -/
def region_writes (m : Nat) (region : String) (ro : RegionOffers) :
    List (Option MovieProviderRow) :=
  ro.flatrate.map (fun e => e.provider_id.map (fun p => ⟨m, p, region, .flatrate⟩)) ++
    ro.rent.map (fun e => e.provider_id.map (fun p => ⟨m, p, region, .rent⟩)) ++
    ro.buy.map (fun e => e.provider_id.map (fun p => ⟨m, p, region, .buy⟩))

/-- All row creations attempted across the payload's regions, skipping
regions outside the allow-list, in iteration order. -/
def provider_writes (m : Nat) (providers_data : List (String × RegionOffers)) :
    List (Option MovieProviderRow) :=
  (providers_data.filter (fun rd => ALLOWED_REGIONS.contains rd.1)).flatMap
    (fun rd => region_writes m rd.1 rd.2)

/-- The create loop of `update_movie_providers` together with the
transaction semantics of its enclosing `transaction.atomic` block
(`django.db.transaction`, framework behaviour):

* reaching the end commits the accumulated state and returns `True`;
* a non-database exception (`none` write, e.g. `KeyError` on a malformed
  entry) is caught by the method's own `try/except`, so the atomic block
  exits normally and COMMITS the writes made so far (the except handler
  returns `False`);
* creating a row that already exists raises `IntegrityError` (unique
  constraint), which marks the transaction for rollback, so the whole
  per-item transaction — including the initial delete — is rolled back to
  `orig` and the method returns `False`. -/
def create_loop (st : List MovieProviderRow) (orig : List MovieProviderRow) :
    List (Option MovieProviderRow) → List MovieProviderRow × Bool
  | [] => (st, true)
  | none :: _ => (st, false)
  | some r :: rest =>
    if r ∈ st then (orig, false)
    else create_loop (st ++ [r]) orig rest

/-- Outcome of `create_loop` separated from its rollback target: `none`
when a unique-constraint violation rolls the transaction back, otherwise
the committed table and the returned boolean. -/
def loop_out (st : List MovieProviderRow) :
    List (Option MovieProviderRow) → Option (List MovieProviderRow × Bool)
  | [] => some (st, true)
  | none :: _ => some (st, false)
  | some r :: rest => if r ∈ st then none else loop_out (st ++ [r]) rest

/-- Embedding of `Command.update_movie_providers`: delete all availability
rows of the movie, then recreate rows from the payload via `create_loop`.
The result is the committed table plus the method's boolean result. -/
def update_movie_providers (db : List MovieProviderRow) (m : Nat)
    (providers_data : List (String × RegionOffers)) : List MovieProviderRow × Bool :=
  let cleared := db.filter (fun r => decide (r.movie ≠ m))
  create_loop cleared db (provider_writes m providers_data)

/-! Theorems about the embedded operations. -/

theorem watch_minutes_split (items : List WatchedRec) :
    total_watch_minutes_stored items +
      (movies_without_runtime items * 120 + tv_without_runtime items * 400) =
      spec_watch_minutes items := by
  induction items with
  | nil => rfl
  | cons w ws ih =>
    simp only [total_watch_minutes_stored, movies_without_runtime, tv_without_runtime,
      spec_watch_minutes, List.filter_cons, List.map_cons, List.sum_cons] at ih ⊢
    cases hr : w.runtime with
    | some r =>
      simp only [hr, Option.isSome_some, Option.isNone_some, if_true, if_false,
        Bool.false_eq_true, List.map_cons, List.sum_cons, Option.getD_some]
      omega
    | none =>
      by_cases hm : w.media_type == "movie"
      · by_cases ht : w.media_type == "tv"
        · exact absurd (beq_iff_eq.mp hm ▸ beq_iff_eq.mp ht) (by simp)
        · simp only [hr, hm, ht, Option.isSome_none, Option.isNone_none, if_true, if_false,
            Bool.false_eq_true, List.filter_cons, List.length_cons, List.map_cons,
            List.sum_cons]
          omega
      · by_cases ht : w.media_type == "tv"
        · simp only [hr, hm, ht, Option.isSome_none, Option.isNone_none, if_true, if_false,
            Bool.false_eq_true, List.filter_cons, List.length_cons, List.map_cons,
            List.sum_cons]
          omega
        · simp only [hr, hm, ht, Option.isSome_none, Option.isNone_none, if_true, if_false,
            Bool.false_eq_true, List.filter_cons, List.length_cons, List.map_cons,
            List.sum_cons]
          omega

/-- C9: the badge evaluator's watch-time counter equals the spec's formula —
the sum of stored runtimes over entries that have one, plus 120 minutes per
watched movie entry and 400 minutes per watched TV entry lacking one,
converted from minutes to hours. -/
theorem C9_watch_hours_spec (items : List WatchedRec) :
    total_watch_hours items = spec_watch_minutes items / 60 := by
  rw [total_watch_hours, watch_minutes_split]

theorem get_or_create_sublist (rows : List UserBadgeRow) (u b : Nat) :
    rows.Sublist (get_or_create_user_badge rows u b) := by
  unfold get_or_create_user_badge
  split
  · exact List.Sublist.refl rows
  · exact List.sublist_append_left rows _

theorem award_badges_sublist (badges : List BadgeRec) (rows : List UserBadgeRow)
    (u c : Nat) : rows.Sublist (award_badges rows u c badges) := by
  induction badges generalizing rows with
  | nil => exact List.Sublist.refl rows
  | cons b bs ih =>
    simp only [award_badges, List.foldl_cons]
    split
    · exact (get_or_create_sublist rows u b.bid).trans (ih _)
    · exact ih rows

/-- C4: badge grants are monotonic — every `UserBadge` row present before a
run of the profile-view badge evaluator is still present (in order) after
it, for any counter values; in particular no row is ever deleted. -/
theorem C4_badge_monotonic (rows : List UserBadgeRow) (u : Nat) (c : ProfileCounters)
    (all_badges : List BadgeRec) (g : UserBadgeRow) (hg : g ∈ rows) :
    rows.Sublist (check_and_award_badges rows u c all_badges) ∧
    g ∈ check_and_award_badges rows u c all_badges := by
  have h : rows.Sublist (check_and_award_badges rows u c all_badges) := by
    unfold check_and_award_badges
    exact ((((award_badges_sublist _ rows u _).trans
      (award_badges_sublist _ _ u _)).trans
      (award_badges_sublist _ _ u _)).trans
      (award_badges_sublist _ _ u _))
  exact ⟨h, h.subset hg⟩

theorem C4_badge_monotonic_witness :
    ([⟨1, 2⟩] : List UserBadgeRow).Sublist
      (check_and_award_badges [⟨1, 2⟩] 1 ⟨0, 0, 0, 0⟩ [⟨2, "movies_watched", 5⟩]) ∧
    (⟨1, 2⟩ : UserBadgeRow) ∈
      check_and_award_badges [⟨1, 2⟩] 1 ⟨0, 0, 0, 0⟩ [⟨2, "movies_watched", 5⟩] :=
  C4_badge_monotonic [⟨1, 2⟩] 1 ⟨0, 0, 0, 0⟩ [⟨2, "movies_watched", 5⟩] ⟨1, 2⟩ (by decide)

/-- C6: evaluation of the provider update at a failing input.  The table
holds one prior row for movie 7; the payload's second flatrate entry lacks
`provider_id`, so `get_or_create_provider` raises after the delete and the
first create.  The exception is caught inside the `transaction.atomic`
block, so the block exits normally and commits the partial writes: the
committed table is `[⟨7, 9, US, flatrate⟩]` — the prior row is gone and
only part of the new rows exist — and it differs from the pre-call table,
contradicting the claimed rollback of the in-flight item's partial writes. -/
theorem C6_commit_on_error_eval :
    update_movie_providers [⟨7, 8, "US", .flatrate⟩] 7
        [("US", ⟨[⟨some 9⟩, ⟨none⟩], [], []⟩)] =
      ([⟨7, 9, "US", .flatrate⟩], false) ∧
    ([⟨7, 9, "US", .flatrate⟩] : List MovieProviderRow) ≠ [⟨7, 8, "US", .flatrate⟩] := by
  constructor
  · rfl
  · decide

theorem sortKeyGe_trans (a b c : ContentDict) (hab : sortKeyGe a b) (hbc : sortKeyGe b c) :
    sortKeyGe a c := by
  simp only [sortKeyGe, decide_eq_true_eq] at hab hbc ⊢
  rcases hab with h1 | ⟨h1, h1r⟩
  · rcases hbc with h2 | ⟨h2, h2r⟩
    · exact Or.inl (h2.trans h1)
    · exact Or.inl (h2 ▸ h1)
  · rcases hbc with h2 | ⟨h2, h2r⟩
    · exact Or.inl (h1.symm ▸ h2)
    · exact Or.inr ⟨h1.trans h2, h2r.trans h1r⟩

theorem sortKeyGe_total (a b : ContentDict) : sortKeyGe a b || sortKeyGe b a := by
  simp only [Bool.or_eq_true, sortKeyGe, decide_eq_true_eq]
  rcases lt_trichotomy a.popularity b.popularity with h | h | h
  · exact Or.inr (Or.inl h)
  · rcases le_total b.rating a.rating with hr | hr
    · exact Or.inl (Or.inr ⟨h, hr⟩)
    · exact Or.inr (Or.inr ⟨h.symm, hr⟩)
  · exact Or.inl (Or.inl h)

/-- C1: the merged movie+TV list built by `views.popular` before pagination
is sorted by the key (popularity, rating) in descending lexicographic
order — every earlier record has strictly higher popularity than each later
one, or equal popularity and a rating at least as high — and it is a
permutation of the processed movie dictionaries followed by the processed
TV dictionaries. -/
theorem C1_popular_sorted (movies tv_shows : List ContentRec)
    (watchlist_ids : List String) :
    (popular_content movies tv_shows watchlist_ids).Pairwise
      (fun a b => b.popularity < a.popularity ∨
        (a.popularity = b.popularity ∧ b.rating ≤ a.rating)) ∧
    (popular_content movies tv_shows watchlist_ids).Perm
      ((movies.map (fun m => process_content_item m watchlist_ids "movie")) ++
        (tv_shows.map (fun t => process_content_item t watchlist_ids "tv"))) := by
  constructor
  · have h := List.sorted_mergeSort sortKeyGe_trans sortKeyGe_total
      ((movies.map (fun m => process_content_item m watchlist_ids "movie")) ++
        (tv_shows.map (fun t => process_content_item t watchlist_ids "tv")))
    exact h.imp (fun hab => by simpa [sortKeyGe] using hab)
  · exact List.mergeSort_perm _ _

theorem num_pages_pos (count per_page : Nat) (h : 0 < per_page) :
    1 ≤ num_pages count per_page := by
  unfold num_pages
  rw [Nat.le_div_iff_mul_le h]
  omega

/-- C3: for a non-empty item list, `paginate_results` clamps out-of-range
page numbers instead of failing — a non-integer page argument yields page 1,
a page number above the page count yields the last page, and page 0 yields
a valid page (between 1 and the page count); the function is total, so no
error reaches the caller. -/
theorem C3_pagination_clamps {α : Type} (items : List α) (items_per_page : Nat)
    (h1 : items ≠ []) (h2 : 0 < items_per_page) :
    (paginate_results items .notAnInt items_per_page).1 = 1 ∧
    (∀ n : Int, (num_pages items.length items_per_page : Int) < n →
      (paginate_results items (.num n) items_per_page).1 =
        (num_pages items.length items_per_page : Int)) ∧
    (1 ≤ (paginate_results items (.num 0) items_per_page).1 ∧
      (paginate_results items (.num 0) items_per_page).1 ≤
        (num_pages items.length items_per_page : Int)) := by
  have hnp := num_pages_pos items.length items_per_page h2
  refine ⟨rfl, ?_, ?_⟩
  · intro n hn
    have hv : validate_number items.length items_per_page (.num n) =
        .error .emptyPage := by
      simp only [validate_number]
      rw [if_neg (by omega), if_pos (by omega), if_neg (by omega)]
    simp only [paginate_results, hv]
  · have hv : validate_number items.length items_per_page (.num 0) =
        .error .emptyPage := by
      simp only [validate_number]
      rw [if_pos (by omega)]
    simp only [paginate_results, hv]
    exact ⟨by exact_mod_cast hnp, le_refl _⟩

theorem C3_pagination_clamps_witness :
    (paginate_results ([10, 20, 30, 40, 50, 60, 70] : List Nat) .notAnInt 3).1 = 1 ∧
    (paginate_results ([10, 20, 30, 40, 50, 60, 70] : List Nat) (.num 5) 3).1 =
      (num_pages 7 3 : Int) ∧
    (1 ≤ (paginate_results ([10, 20, 30, 40, 50, 60, 70] : List Nat) (.num 0) 3).1 ∧
      (paginate_results ([10, 20, 30, 40, 50, 60, 70] : List Nat) (.num 0) 3).1 ≤
        (num_pages 7 3 : Int)) :=
  have h := C3_pagination_clamps ([10, 20, 30, 40, 50, 60, 70] : List Nat) 3
    (by decide) (by decide)
  ⟨h.1, h.2.1 5 (by decide), h.2.2⟩

/-- C10: for a non-empty item list, a page number less than or equal to 0
makes the underlying paginator raise `EmptyPage` (its numbers start at 1),
and `paginate_results` maps that error to the LAST page, not the first. -/
theorem C10_nonpositive_page_last {α : Type} (items : List α) (items_per_page : Nat)
    (h1 : items ≠ []) (h2 : 0 < items_per_page) (n : Int) (hn : n ≤ 0) :
    (paginate_results items (.num n) items_per_page).1 =
      (num_pages items.length items_per_page : Int) := by
  have hv : validate_number items.length items_per_page (.num n) =
      .error .emptyPage := by
    simp only [validate_number]
    rw [if_pos (by omega)]
  simp only [paginate_results, hv]

theorem C10_nonpositive_page_last_witness :
    (paginate_results ([10, 20, 30, 40, 50, 60, 70] : List Nat) (.num 0) 3).1 =
      (num_pages 7 3 : Int) ∧ (num_pages 7 3 : Int) = 3 :=
  ⟨C10_nonpositive_page_last ([10, 20, 30, 40, 50, 60, 70] : List Nat) 3
    (by decide) (by decide) 0 (by decide), by decide⟩

theorem foldl_last_keyword (discover : Nat → List SearchItem) (l : List KeywordRec) :
    ∀ (a : Option (List SearchItem)), l ≠ [] →
      l.foldl (fun _ k => some (discover k.id)) a =
        l.getLast?.map (fun k => discover k.id) := by
  induction l with
  | nil => intro a h; exact absurd rfl h
  | cons x xs ih =>
    intro a h
    cases xs with
    | nil => rfl
    | cons y ys =>
      rw [List.foldl_cons, ih _ (by simp), List.getLast?_cons_cons]

/-- C8: whenever the keyword lookup returns at least one keyword,
`keyword_search` keeps at most three keyword ids, and its result is exactly
the discover-by-keyword response of the LAST keyword processed — a single
keyword's results, not a union across the kept keywords. -/
theorem C8_keyword_last_only (keyword_lookup : List KeywordRec)
    (discover : Nat → List SearchItem) (h : keyword_lookup ≠ []) :
    (keyword_lookup.take 3).length ≤ 3 ∧
    ∃ k : KeywordRec, (keyword_lookup.take 3).getLast? = some k ∧
      keyword_search keyword_lookup discover = some (discover k.id) := by
  have htake : keyword_lookup.take 3 ≠ [] := by
    cases keyword_lookup with
    | nil => exact absurd rfl h
    | cons x xs => simp
  constructor
  · rw [List.length_take]; omega
  · obtain ⟨k, hk⟩ := Option.isSome_iff_exists.mp (List.getLast?_isSome.mpr htake)
    refine ⟨k, hk, ?_⟩
    simp only [keyword_search, if_neg h]
    rw [foldl_last_keyword discover _ _ htake, hk]
    rfl

theorem C8_keyword_last_only_witness :
    ((([⟨1⟩, ⟨2⟩, ⟨3⟩, ⟨4⟩] : List KeywordRec).take 3).length ≤ 3) ∧
    ∃ k : KeywordRec, (([⟨1⟩, ⟨2⟩, ⟨3⟩, ⟨4⟩] : List KeywordRec).take 3).getLast? = some k ∧
      keyword_search [⟨1⟩, ⟨2⟩, ⟨3⟩, ⟨4⟩] (fun n => [mkItem (some n)]) =
        some ((fun n : Nat => [mkItem (some n)]) k.id) :=
  C8_keyword_last_only [⟨1⟩, ⟨2⟩, ⟨3⟩, ⟨4⟩] (fun n => [mkItem (some n)]) (by decide)

/-- C5: for distinct users with no friend-request row between them, after a
successful `send_friend_request` followed by a successful
`accept_friend_request`, each user appears in the other's `get_friends`
result. -/
theorem C5_friend_symmetry (db : List FriendRequestRec) (A B : Nat) (hAB : A ≠ B)
    (hnone : ∀ r ∈ db, ¬((r.from_user = A ∧ r.to_user = B) ∨
      (r.from_user = B ∧ r.to_user = A))) :
    (send_friend_request db A B).2 = true ∧
    ∃ res : List FriendRequestRec × Bool,
      accept_friend_request (send_friend_request db A B).1 B A = some res ∧
      res.2 = true ∧ B ∈ get_friends res.1 A ∧ A ∈ get_friends res.1 B := by
  have hany : db.any (fun r =>
      decide ((r.from_user = A ∧ r.to_user = B) ∨
        (r.from_user = B ∧ r.to_user = A))) = false := by
    rw [List.any_eq_false]
    intro r hr
    simpa using hnone r hr
  have hsend : send_friend_request db A B = (db ++ [⟨A, B, .pending⟩], true) := by
    unfold send_friend_request
    rw [if_neg hAB, if_neg (by simp only [hany]; decide)]
  have hfil : (db ++ [(⟨A, B, .pending⟩ : FriendRequestRec)]).filter (acceptPred B A) =
      [⟨A, B, .pending⟩] := by
    rw [List.filter_append]
    have hdb : db.filter (acceptPred B A) = [] := by
      rw [List.filter_eq_nil_iff]
      intro r hr
      have hnr := hnone r hr
      simp only [acceptPred, decide_eq_true_eq]
      tauto
    rw [hdb]
    simp [acceptPred]
  have hacc : accept_friend_request (db ++ [(⟨A, B, .pending⟩ : FriendRequestRec)]) B A =
      some ((db ++ [(⟨A, B, .pending⟩ : FriendRequestRec)]).map (fun r =>
        if acceptPred B A r then { r with status := .accepted } else r), true) := by
    unfold accept_friend_request
    rw [hfil]
  have hmap : (db ++ [(⟨A, B, .pending⟩ : FriendRequestRec)]).map (fun r =>
      if acceptPred B A r then { r with status := .accepted } else r) =
      db ++ [⟨A, B, .accepted⟩] := by
    rw [List.map_append]
    congr 1
    · conv_rhs => rw [← List.map_id db]
      apply List.map_congr_left
      intro r hr
      have hnr := hnone r hr
      rw [if_neg (by simp only [acceptPred, decide_eq_true_eq]; tauto)]
      rfl
    · simp [acceptPred]
  have hBf : B ∈ get_friends (db ++ [⟨A, B, .accepted⟩]) A := by
    unfold get_friends
    apply List.mem_append_left
    rw [List.mem_map]
    exact ⟨⟨A, B, .accepted⟩, by simp [List.mem_filter], rfl⟩
  have hAf : A ∈ get_friends (db ++ [⟨A, B, .accepted⟩]) B := by
    unfold get_friends
    apply List.mem_append_right
    rw [List.mem_map]
    exact ⟨⟨A, B, .accepted⟩, by simp [List.mem_filter], rfl⟩
  have hfinal : accept_friend_request (send_friend_request db A B).1 B A =
      some (db ++ [⟨A, B, .accepted⟩], true) := by
    rw [hsend]
    rw [hacc, hmap]
  exact ⟨by rw [hsend], (db ++ [⟨A, B, .accepted⟩], true), hfinal, rfl, hBf, hAf⟩

theorem C5_friend_symmetry_witness :
    (send_friend_request [] 1 2).2 = true ∧
    ∃ res : List FriendRequestRec × Bool,
      accept_friend_request (send_friend_request [] 1 2).1 2 1 = some res ∧
      res.2 = true ∧ 2 ∈ get_friends res.1 1 ∧ 1 ∈ get_friends res.1 2 :=
  C5_friend_symmetry [] 1 2 (by decide) (by intro r hr; simp at hr)

theorem dedup_go_cons_none (item : SearchItem) (rest : List SearchItem)
    (seen : List Nat) (h : item.id = none) :
    dedup_go (item :: rest) seen = dedup_go rest seen := by
  simp only [dedup_go, h]

theorem dedup_go_cons_some (item : SearchItem) (rest : List SearchItem)
    (seen : List Nat) (n : Nat) (h : item.id = some n) :
    dedup_go (item :: rest) seen =
      if n ≠ 0 ∧ n ∉ seen then item :: dedup_go rest (n :: seen)
      else dedup_go rest seen := by
  simp only [dedup_go, h]

theorem dedup_go_sublist (l : List SearchItem) :
    ∀ seen : List Nat, (dedup_go l seen).Sublist l := by
  induction l with
  | nil => intro seen; simp [dedup_go]
  | cons item rest ih =>
    intro seen
    cases hid : item.id with
    | none =>
      rw [dedup_go_cons_none item rest seen hid]
      exact (ih seen).cons item
    | some n =>
      rw [dedup_go_cons_some item rest seen n hid]
      by_cases hkeep : n ≠ 0 ∧ n ∉ seen
      · rw [if_pos hkeep]
        exact (ih (n :: seen)).cons₂ item
      · rw [if_neg hkeep]
        exact (ih seen).cons item

theorem dedup_go_filter (n : Nat) (hn : n ≠ 0) (l : List SearchItem) :
    ∀ seen : List Nat,
      (dedup_go l seen).filter (byId n) =
        if n ∈ seen then [] else (l.filter (byId n)).take 1 := by
  induction l with
  | nil => intro seen; simp [dedup_go]
  | cons item rest ih =>
    intro seen
    cases hid : item.id with
    | none =>
      have hb : byId n item = false := by simp [byId, hid]
      rw [dedup_go_cons_none item rest seen hid, ih seen, List.filter_cons, hb]
      simp only [Bool.false_eq_true, if_false]
    | some m =>
      rw [dedup_go_cons_some item rest seen m hid]
      by_cases hkeep : m ≠ 0 ∧ m ∉ seen
      · rw [if_pos hkeep]
        by_cases hmn : m = n
        · subst hmn
          have hb : byId m item = true := by simp [byId, hid]
          rw [List.filter_cons, hb, if_pos rfl, ih (m :: seen),
            if_pos (List.mem_cons_self m seen), if_neg hkeep.2,
            List.filter_cons, hb, if_pos rfl]
          rfl
        · have hb : byId n item = false := by
            simp only [byId, hid, beq_eq_false_iff_ne, ne_eq, Option.some.injEq]
            exact hmn
          have hiff : (n ∈ m :: seen) ↔ (n ∈ seen) := by
            rw [List.mem_cons]
            exact ⟨fun h => h.elim (fun he => absurd he.symm hmn) id, Or.inr⟩
          rw [List.filter_cons, hb, ih (m :: seen), List.filter_cons, hb]
          simp only [Bool.false_eq_true, if_false, hiff]
      · rw [if_neg hkeep, ih seen]
        by_cases hs : n ∈ seen
        · rw [if_pos hs, if_pos hs]
        · rw [if_neg hs, if_neg hs]
          have hmn : m ≠ n := by
            intro he
            exact hkeep ⟨by rw [he]; exact hn, by rw [he]; exact hs⟩
          have hb : byId n item = false := by
            simp only [byId, hid, beq_eq_false_iff_ne, ne_eq, Option.some.injEq]
            exact hmn
          rw [List.filter_cons, hb]
          simp only [Bool.false_eq_true, if_false]

/-- C2 as frozen is refuted at a concrete input: an item whose external id
is the (Python-falsy) value 0 appears in the merged sub-search results but
occurs zero times — not exactly once — in the returned list, because the
de-duplication loop keeps an item only when its id is truthy. -/
theorem C2_counterexample :
    (tmdb_search [mkItem (some 0), mkItem (some 5)] [] []).countP (byId 0) = 0 ∧
    mkItem (some 0) ∈
      ([mkItem (some 0), mkItem (some 5)] ++ [] ++ [] : List SearchItem) ∧
    mkItem (some 0) ∉ tmdb_search [mkItem (some 0), mkItem (some 5)] [] [] := by
  decide

/-- C2 amended: the multi search concatenates collection, keyword and title
results in that order; every distinct NONZERO external id present in that
concatenation occurs exactly once in the de-duplicated list — represented
by its first occurrence, in first-seen order (the de-duplicated list is a
sublist of the concatenation); items whose id is absent or 0 are dropped;
and the result is the single synthetic placeholder exactly when the
de-duplicated list is empty, otherwise the de-duplicated list itself. -/
theorem C2_dedup_amended (collection_results keyword_results title_results :
    List SearchItem) :
    ((dedup_go (collection_results ++ keyword_results ++ title_results) [] = [] ∧
        tmdb_search collection_results keyword_results title_results =
          [no_results_placeholder]) ∨
      tmdb_search collection_results keyword_results title_results =
        dedup_go (collection_results ++ keyword_results ++ title_results) []) ∧
    (dedup_go (collection_results ++ keyword_results ++ title_results) []).Sublist
      (collection_results ++ keyword_results ++ title_results) ∧
    (∀ n : Nat, n ≠ 0 →
      (dedup_go (collection_results ++ keyword_results ++ title_results) []).filter
          (byId n) =
        ((collection_results ++ keyword_results ++ title_results).filter (byId n)).take 1) := by
  refine ⟨?_, dedup_go_sublist _ [], ?_⟩
  · by_cases h : dedup_go (collection_results ++ keyword_results ++ title_results) [] = []
    · refine Or.inl ⟨h, ?_⟩
      simp only [tmdb_search]
      rw [if_pos h]
    · refine Or.inr ?_
      simp only [tmdb_search]
      rw [if_neg h]
  · intro n hn
    have h := dedup_go_filter n hn
      (collection_results ++ keyword_results ++ title_results) []
    simpa using h

theorem C2_dedup_amended_witness :
    (dedup_go ([mkItem (some 5), mkItem (some 5)] ++ [] ++ []) []).filter (byId 5) =
      (([mkItem (some 5), mkItem (some 5)] ++ [] ++ []).filter (byId 5)).take 1 :=
  (C2_dedup_amended [mkItem (some 5), mkItem (some 5)] [] []).2.2 5 (by decide)

theorem create_loop_eq (ws : List (Option MovieProviderRow)) :
    ∀ (st o : List MovieProviderRow),
      create_loop st o ws = (loop_out st ws).getD (o, false) := by
  induction ws with
  | nil => intro st o; rfl
  | cons w rest ih =>
    intro st o
    cases w with
    | none => rfl
    | some r =>
      simp only [create_loop, loop_out]
      by_cases hmem : r ∈ st
      · rw [if_pos hmem, if_pos hmem]
        rfl
      · rw [if_neg hmem, if_neg hmem]
        exact ih (st ++ [r]) o

theorem loop_out_spec (ws : List (Option MovieProviderRow)) :
    ∀ (st fin : List MovieProviderRow) (b : Bool), loop_out st ws = some (fin, b) →
      ∃ added : List MovieProviderRow, fin = st ++ added ∧ ∀ r ∈ added, some r ∈ ws := by
  induction ws with
  | nil =>
    intro st fin b h
    simp only [loop_out, Option.some.injEq, Prod.mk.injEq] at h
    exact ⟨[], by simp [h.1.symm], by simp⟩
  | cons w rest ih =>
    intro st fin b h
    cases w with
    | none =>
      simp only [loop_out, Option.some.injEq, Prod.mk.injEq] at h
      exact ⟨[], by simp [h.1.symm], by simp⟩
    | some r =>
      simp only [loop_out] at h
      by_cases hmem : r ∈ st
      · rw [if_pos hmem] at h
        exact absurd h (by simp)
      · rw [if_neg hmem] at h
        obtain ⟨added, hfin, hmemw⟩ := ih (st ++ [r]) fin b h
        refine ⟨r :: added, by simp [hfin], ?_⟩
        intro x hx
        rcases List.mem_cons.mp hx with hx | hx
        · subst hx
          exact List.mem_cons_self _ _
        · exact List.mem_cons_of_mem _ (hmemw x hx)

theorem loop_out_nodup (ws : List (Option MovieProviderRow)) :
    ∀ (st fin : List MovieProviderRow) (b : Bool), st.Nodup →
      loop_out st ws = some (fin, b) → fin.Nodup := by
  induction ws with
  | nil =>
    intro st fin b hnd h
    simp only [loop_out, Option.some.injEq, Prod.mk.injEq] at h
    exact h.1 ▸ hnd
  | cons w rest ih =>
    intro st fin b hnd h
    cases w with
    | none =>
      simp only [loop_out, Option.some.injEq, Prod.mk.injEq] at h
      exact h.1 ▸ hnd
    | some r =>
      simp only [loop_out] at h
      by_cases hmem : r ∈ st
      · rw [if_pos hmem] at h
        exact absurd h (by simp)
      · rw [if_neg hmem] at h
        refine ih (st ++ [r]) fin b ?_ h
        rw [List.nodup_append]
        exact ⟨hnd, List.nodup_singleton r, by simpa [List.disjoint_singleton] using hmem⟩

theorem provider_writes_movie (m : Nat) (providers_data : List (String × RegionOffers)) :
    ∀ r : MovieProviderRow, some r ∈ provider_writes m providers_data → r.movie = m := by
  intro r hr
  simp only [provider_writes, List.mem_flatMap] at hr
  obtain ⟨rd, hrd, hmem⟩ := hr
  simp only [region_writes, List.mem_append, List.mem_map] at hmem
  rcases hmem with (⟨e, he, heq⟩ | ⟨e, he, heq⟩) | ⟨e, he, heq⟩ <;>
  · obtain ⟨p, hp, hfp⟩ := Option.map_eq_some'.mp heq
    rw [← hfp]

/-- C7: the per-item provider refresh is idempotent — for a fixed upstream
payload, running `update_movie_providers` twice leaves exactly the table of
one run (the run first deletes every prior row of the item, and its outcome
depends only on the cleared table and the payload), and the resulting table
has no duplicate rows (given the unique-constraint invariant on the input
table). -/
theorem C7_provider_refresh_idempotent (db : List MovieProviderRow) (m : Nat)
    (providers_data : List (String × RegionOffers)) (hnd : db.Nodup) :
    (update_movie_providers (update_movie_providers db m providers_data).1 m
        providers_data).1 = (update_movie_providers db m providers_data).1 ∧
    ((update_movie_providers db m providers_data).1).Nodup := by
  have h1 : update_movie_providers db m providers_data =
      (loop_out (db.filter (fun r => decide (r.movie ≠ m)))
        (provider_writes m providers_data)).getD (db, false) := by
    unfold update_movie_providers
    rw [create_loop_eq]
  have hclnd : (db.filter (fun r => decide (r.movie ≠ m))).Nodup := hnd.filter _
  cases hout : loop_out (db.filter (fun r => decide (r.movie ≠ m)))
      (provider_writes m providers_data) with
  | none =>
    have hr1 : update_movie_providers db m providers_data = (db, false) := by
      rw [h1, hout]
      rfl
    constructor
    · rw [hr1]
      show (update_movie_providers db m providers_data).1 = db
      rw [hr1]
    · rw [hr1]
      exact hnd
  | some fin_b =>
    obtain ⟨fin, b⟩ := fin_b
    have hr1 : update_movie_providers db m providers_data = (fin, b) := by
      rw [h1, hout]
      rfl
    obtain ⟨added, hfa, hmemw⟩ :=
      loop_out_spec (provider_writes m providers_data) _ fin b hout
    have hclf : fin.filter (fun r => decide (r.movie ≠ m)) =
        db.filter (fun r => decide (r.movie ≠ m)) := by
      rw [hfa, List.filter_append]
      have h2 : (db.filter (fun r => decide (r.movie ≠ m))).filter
          (fun r => decide (r.movie ≠ m)) = db.filter (fun r => decide (r.movie ≠ m)) := by
        rw [List.filter_eq_self]
        intro a ha
        exact (List.mem_filter.mp ha).2
      have h3 : added.filter (fun r => decide (r.movie ≠ m)) = [] := by
        rw [List.filter_eq_nil_iff]
        intro r hr
        simp [provider_writes_movie m providers_data r (hmemw r hr)]
      rw [h2, h3, List.append_nil]
    have hr2 : update_movie_providers fin m providers_data = (fin, b) := by
      unfold update_movie_providers
      rw [hclf, create_loop_eq, hout]
      rfl
    constructor
    · rw [hr1]
      show (update_movie_providers fin m providers_data).1 = fin
      rw [hr2]
    · rw [hr1]
      show fin.Nodup
      exact loop_out_nodup (provider_writes m providers_data) _ fin b hclnd hout

theorem C7_provider_refresh_idempotent_witness :
    (update_movie_providers (update_movie_providers [⟨1, 2, "US", .flatrate⟩] 1
        [("US", ⟨[⟨some 9⟩], [⟨some 9⟩], []⟩)]).1 1
        [("US", ⟨[⟨some 9⟩], [⟨some 9⟩], []⟩)]).1 =
      (update_movie_providers [⟨1, 2, "US", .flatrate⟩] 1
        [("US", ⟨[⟨some 9⟩], [⟨some 9⟩], []⟩)]).1 ∧
    ((update_movie_providers [⟨1, 2, "US", .flatrate⟩] 1
        [("US", ⟨[⟨some 9⟩], [⟨some 9⟩], []⟩)]).1).Nodup :=
  C7_provider_refresh_idempotent [⟨1, 2, "US", .flatrate⟩] 1
    [("US", ⟨[⟨some 9⟩], [⟨some 9⟩], []⟩)] (by decide)

end MovieVikings
